import Mathlib

/-!
Verification development for the resilient data-access layer of the
mars-100 dashboard: the unified tiered cache with TTL classification and
single-flight request deduplication (`UnifiedCacheSystem` in
`src/api/roverData.js`) and the retrying HTTP client with admission
control, categorized retry decisions and exponential backoff with jitter
(`APIRateLimit` / `NASAApiService` in `src/api/nasaApiService.js`).

Times (`Date.now()` values) and durations are modelled as rationals (all
the constants involved are exactly representable); JavaScript values that
flow through the cache are modelled by an explicit `JSVal` type so that
JavaScript truthiness can be stated faithfully.  Asynchronous functions
are modelled by their synchronous prefix (up to the first `await`) as a
state transition, plus explicit settlement transitions for the `.then` /
`.catch` continuations; promises are identified by numeric ids, so two
callers observe the same settled outcome exactly when they hold the same
promise id.  The metrics side channel (`performanceMonitor`) is modelled
as an event log where a claim needs it; `estimateSize` (a debug memory
estimate) is not modelled, as no stated property touches it.
-/

/-- A JavaScript value, as far as the cache layer can distinguish them:
`null`, `undefined`, booleans, numbers, strings, and opaque object
references (identified by an id). -/
inductive JSVal where
  | vnull
  | vundefined
  | vbool (b : Bool)
  | vnum (q : ℚ)
  | vstr (s : String)
  | vobj (id : Nat)
deriving DecidableEq, Repr

/-- JavaScript truthiness of a `JSVal` (`NaN` is not representable here;
no cache payload in the source is `NaN`). -/
def JSVal.truthy : JSVal → Bool
  | .vnull => false
  | .vundefined => false
  | .vbool b => b
  | .vnum q => q ≠ 0
  | .vstr s => s ≠ ""
  | .vobj _ => true

/-- Boolean prefix test on character lists; `strStartsWith` below models
`String.prototype.startsWith` (all patterns involved are ASCII, so code
points and UTF-16 code units coincide). -/
def listIsPrefixOf : List Char → List Char → Bool
  | [], _ => true
  | _ :: _, [] => false
  | c :: cs, d :: ds => c = d && listIsPrefixOf cs ds

/-- `s.startsWith(p)` on JavaScript strings. -/
def strStartsWith (s p : String) : Bool :=
  listIsPrefixOf p.toList s.toList

/-- Substring containment: `s.includes(p)` on JavaScript strings. -/
def listContainsSub (s p : List Char) : Bool :=
  match s with
  | [] => listIsPrefixOf p []
  | _ :: rest => listIsPrefixOf p s || listContainsSub rest p

/-- `s.includes(p)` on JavaScript strings. -/
def strIncludes (s p : String) : Bool :=
  listContainsSub s.toList p.toList

/-! Association lists standing for JavaScript `Map`s.  `ainsert` keeps an
existing key at its position (as `Map.prototype.set` does), `aerase`
removes the key, `alookup` is `Map.prototype.get`. -/

/-- Lookup in an association list (`Map.prototype.get`). -/
def alookup {α : Type} : List (String × α) → String → Option α
  | [], _ => none
  | (k, v) :: rest, key => if k = key then some v else alookup rest key

/-- Insert into an association list, replacing in place if the key exists
and appending otherwise (`Map.prototype.set`). -/
def ainsert {α : Type} : List (String × α) → String → α → List (String × α)
  | [], key, v => [(key, v)]
  | (k, w) :: rest, key, v =>
      if k = key then (key, v) :: rest else (k, w) :: ainsert rest key v

/-- Delete a key from an association list (`Map.prototype.delete`). -/
def aerase {α : Type} : List (String × α) → String → List (String × α)
  | [], _ => []
  | (k, v) :: rest, key =>
      if k = key then aerase rest key else (k, v) :: aerase rest key

/-- Boolean check that the keys of an association list are pairwise
distinct (a real `Map` satisfies this by construction). -/
def keysNodup {α : Type} : List (String × α) → Bool
  | [] => true
  | (k, _) :: rest => (alookup rest k).isNone && keysNodup rest

namespace UnifiedCacheSystem

/-- One cache entry, as stored by `UnifiedCacheSystem.set`: the payload,
its creation time (`timestamp`), expiry time (`expires`), access
statistics, and the tier name computed at store time (`type`).  The
`size` field of the source (a debug estimate) is not modelled. -/
structure CacheEntry where
  data : JSVal
  timestamp : ℚ
  expires : ℚ
  accessCount : Nat
  lastAccessed : ℚ
  type : String
deriving DecidableEq, Repr

/-- The cache configuration table of the constructor, in its literal
(insertion) order: tier name, TTL duration in milliseconds, and the list
of key-prefix patterns routed to that tier. -/
def cacheConfig : List (String × ℚ × List String) :=
  [("static", (3600000, ["manifest_", "rover_info_"])),
   ("semiStatic", (1800000, ["photos_date_", "latest_"])),
   ("dynamic", (300000, ["photos_", "telemetry_", "rover-data-"])),
   ("realTime", (60000, ["status_", "live_"]))]

/-- `getCacheType`: scan the configuration in order and return the first
tier one of whose patterns is a prefix of the key; default `"dynamic"`. -/
def getCacheType (key : String) : String :=
  match cacheConfig.find? (fun c => c.2.2.any (fun p => strStartsWith key p)) with
  | some c => c.1
  | none => "dynamic"

/-- `getCacheDuration`: the TTL duration of the key's tier. -/
def getCacheDuration (key : String) : ℚ :=
  match cacheConfig.find? (fun c => c.1 = getCacheType key) with
  | some c => c.2.1
  | none => 300000

/-- Mutable state of the `UnifiedCacheSystem` singleton: the entry map,
the pending-request map (key to promise id), and the numeric metrics the
claims can observe. -/
structure CacheState where
  cache : List (String × CacheEntry)
  pendingRequests : List (String × Nat)
  hits : Nat
  misses : Nat
  requests : Nat
  errors : Nat
deriving Repr

/-- The freshly constructed system: empty maps, zero metrics. -/
def initState : CacheState :=
  { cache := [], pendingRequests := [], hits := 0, misses := 0, requests := 0, errors := 0 }

/-- Stable insertion step for the ascending-`lastAccessed` sort: the new
element goes in front of the first list element it is not strictly
greater than (so an element arriving earlier stays in front of later
ties). -/
def insertLastAccessed (x : String × CacheEntry) :
    List (String × CacheEntry) → List (String × CacheEntry)
  | [] => [x]
  | y :: ys =>
      if x.2.lastAccessed ≤ y.2.lastAccessed then x :: y :: ys
      else y :: insertLastAccessed x ys

/-- Stable ascending sort by `lastAccessed`, modelling
`Array.from(this.cache.entries()).sort(([,a],[,b]) => a.lastAccessed -
b.lastAccessed)` — `Array.prototype.sort` is stable, so entries with
equal `lastAccessed` keep the map's insertion order. -/
def sortByLastAccessed : List (String × CacheEntry) → List (String × CacheEntry)
  | [] => []
  | x :: xs => insertLastAccessed x (sortByLastAccessed xs)

/-- `evictOldest(count)`: delete the `count` entries with the smallest
`lastAccessed` (ties resolved by insertion order, as the stable sort
does). -/
def evictOldest (c : List (String × CacheEntry)) (count : Nat) :
    List (String × CacheEntry) :=
  ((sortByLastAccessed c).take count).foldl (fun acc kv => aerase acc kv.1) c

/-- `updateCacheSize()`: soft capacity cap of 1000 entries; when the map
exceeds it, evict the 10% least recently accessed
(`Math.floor(1000 * 0.1) = 100`, float rounding included). -/
def updateCacheSize (c : List (String × CacheEntry)) : List (String × CacheEntry) :=
  if c.length > 1000 then evictOldest c 100 else c

/-- `set(key, data, customTTL)` at time `now`.  The source computes
`duration = customTTL || this.getCacheDuration(key)`: a missing or
zero (falsy) override falls back to the tier duration.  After storing the
entry it runs `this.updateCacheSize()`, whose capacity sweep may evict
entries — under `lastAccessed` ties, possibly the key just written. -/
def set (st : CacheState) (key : String) (data : JSVal) (customTTL : Option ℚ)
    (now : ℚ) : CacheState :=
  let duration : ℚ :=
    match customTTL with
    | some t => if t ≠ 0 then t else getCacheDuration key
    | none => getCacheDuration key
  let e : CacheEntry :=
    { data := data, timestamp := now, expires := now + duration,
      accessCount := 0, lastAccessed := now, type := getCacheType key }
  { st with cache := updateCacheSize (ainsert st.cache key e) }

/-- `get(key)` at time `now`: returns `null` on a missing key (counting a
miss), deletes an expired entry and returns `null` (miss plus eviction),
and otherwise bumps the access statistics and returns the stored payload. -/
def get (st : CacheState) (key : String) (now : ℚ) : JSVal × CacheState :=
  match alookup st.cache key with
  | none => (JSVal.vnull, { st with misses := st.misses + 1 })
  | some e =>
      if now > e.expires then
        (JSVal.vnull, { st with cache := aerase st.cache key, misses := st.misses + 1 })
      else
        let e2 : CacheEntry := { e with accessCount := e.accessCount + 1, lastAccessed := now }
        (e.data, { st with cache := ainsert st.cache key e2, hits := st.hits + 1 })

/-- Outcome of the synchronous prefix of one `deduplicateRequest(key, fn)`
call: a truthy cache hit returns the cached value; otherwise the caller
either joins an already-pending promise or starts a new fetch, creating a
fresh promise.  Two callers observe the same settled outcome exactly when
they hold the same promise id. -/
inductive DedupOutcome where
  | cachedHit (v : JSVal)
  | joinedPending (pid : Nat)
  | startedFetch (pid : Nat)
deriving DecidableEq, Repr

/-- Cache state together with the promise-id supply and a count of how
many times a caller-supplied `requestFunction` has been invoked. -/
structure DedupState where
  cs : CacheState
  nextId : Nat
  fetchCount : Nat
deriving Repr

/-- Synchronous prefix of `deduplicateRequest(key, requestFunction)` at
time `now`: check the cache (JavaScript truthiness on the returned
value), then the pending map, and only if both miss invoke the request
function and register its promise under `key`. -/
def deduplicateRequest (st : DedupState) (key : String) (now : ℚ) :
    DedupOutcome × DedupState :=
  let gres := get st.cs key now
  let cached := gres.1
  let cs1 := gres.2
  if cached.truthy then
    (DedupOutcome.cachedHit cached, { st with cs := cs1 })
  else
    match alookup cs1.pendingRequests key with
    | some pid => (DedupOutcome.joinedPending pid, { st with cs := cs1 })
    | none =>
        let pid := st.nextId
        let cs2 := { cs1 with pendingRequests := ainsert cs1.pendingRequests key pid }
        (DedupOutcome.startedFetch pid,
          { cs := cs2, nextId := pid + 1, fetchCount := st.fetchCount + 1 })

/-- The `.then` continuation of the fetch promise: bump the request
metrics, cache the successful result via `set` (no TTL override), and
remove the pending entry.  Every holder of the settled promise receives
`data`. -/
def settleSuccess (st : DedupState) (key : String) (data : JSVal) (now : ℚ) :
    DedupState :=
  let cs1 := { st.cs with requests := st.cs.requests + 1 }
  let cs2 := set cs1 key data none now
  { st with cs := { cs2 with pendingRequests := aerase cs2.pendingRequests key } }

/-- The `.catch` continuation of the fetch promise: bump the error
metric, remove the pending entry, and rethrow — nothing is written to the
cache, and every holder of the settled promise receives the same
rejection. -/
def settleFailure (st : DedupState) (key : String) : DedupState :=
  { st with cs := { st.cs with
      errors := st.cs.errors + 1,
      pendingRequests := aerase st.cs.pendingRequests key } }

/-- `n` callers of `deduplicateRequest` for the same key arriving back to
back on the event loop (before the fetch settles), returning the list of
their outcomes in arrival order. -/
def deduplicateCalls (st : DedupState) (key : String) (now : ℚ) :
    Nat → List DedupOutcome × DedupState
  | 0 => ([], st)
  | n + 1 =>
      let first := deduplicateRequest st key now
      let rest := deduplicateCalls first.2 key now n
      (first.1 :: rest.1, rest.2)

/-- `invalidate(pattern)` for a string pattern: delete every entry whose
key contains the pattern as a substring; return the number removed.  (The
`RegExp` branch of the source is not exercised by any claim.) -/
def invalidate (st : CacheState) (pattern : String) : CacheState × Nat :=
  let removed := st.cache.filter (fun kv => strIncludes kv.1 pattern)
  ({ st with cache := st.cache.filter (fun kv => !strIncludes kv.1 pattern) },
    removed.length)

/-- Fate of one entry under the `optimize()` loop body. -/
inductive EntryFate where
  | removed
  | promoted (kv : String × CacheEntry)
  | kept (kv : String × CacheEntry)
deriving DecidableEq, Repr

/-- One entry's fate under `optimize()` at time `now`.  Mirrors the loop
body: an entry with zero accesses older than twice its tier TTL is
deleted; otherwise an entry with more than 10 accesses whose tier is not
`static` is promoted, getting
`expires = min(now + 1.5 * (expires - timestamp), now + staticDuration)`;
anything else is kept unchanged. -/
def optimizeEntry (now : ℚ) (kv : String × CacheEntry) : EntryFate :=
  let k := kv.1
  let e := kv.2
  if e.accessCount = 0 ∧ now - e.timestamp > 2 * getCacheDuration k then
    EntryFate.removed
  else if e.accessCount > 10 ∧ e.type ≠ "static" then
    let currentDuration := e.expires - e.timestamp
    let newExpires := now + currentDuration * (3 / 2)
    EntryFate.promoted (k, { e with expires := min newExpires (now + 3600000) })
  else
    EntryFate.kept kv

/-- The `optimize()` loop over the entry list, accumulating the
`removed` and `promoted` counters the source returns. -/
def optimizeLoop (now : ℚ) :
    List (String × CacheEntry) → List (String × CacheEntry) × Nat × Nat
  | [] => ([], 0, 0)
  | kv :: rest =>
      let res := optimizeLoop now rest
      match optimizeEntry now kv with
      | EntryFate.removed => (res.1, res.2.1 + 1, res.2.2)
      | EntryFate.promoted kv2 => (kv2 :: res.1, res.2.1, res.2.2 + 1)
      | EntryFate.kept kv2 => (kv2 :: res.1, res.2.1, res.2.2)

/-- `optimize()` at time `now`: sweep every entry, returning the new
state with the `removed` and `promoted` counts. -/
def optimize (st : CacheState) (now : ℚ) : CacheState × Nat × Nat :=
  let res := optimizeLoop now st.cache
  ({ st with cache := res.1 }, res.2.1, res.2.2)

end UnifiedCacheSystem

/-- A JavaScript `Error` object as the retry logic can observe it: its
`name`, its `message`, and the `status` of the `response` property that
`makeRequest` attaches to HTTP errors (absent on other errors). -/
structure JSError where
  name : String
  message : String
  responseStatus : Option Nat
deriving DecidableEq, Repr

namespace APIRateLimit

/-- Retry configuration constants from the constructor. -/
def maxAttempts : Nat := 4

/-- Base backoff delay in milliseconds. -/
def baseDelay : ℚ := 1000

/-- Backoff delay cap in milliseconds. -/
def maxDelay : ℚ := 10000

/-- Exponential backoff multiplier. -/
def backoffMultiplier : ℚ := 2

/-- Jitter fraction (10%). -/
def jitterMax : ℚ := 1 / 10

/-- NASA API hourly quota. -/
def MAX_REQUESTS_PER_HOUR : Nat := 1000

/-- Parse of a decimal digit run, as `parseInt` does on the capture of
`/failed: (\d+)/`. -/
def digitsToNat (l : List Char) : Nat :=
  l.foldl (fun n c => n * 10 + (c.toNat - 48)) 0

/-- First match of the regular expression `failed: (\d+)` in a character
list: the first occurrence of `"failed: "` that is immediately followed
by at least one digit, whose maximal digit run is the capture. -/
def findFailedStatus : List Char → Option Nat
  | [] => none
  | c :: rest =>
      let l := c :: rest
      if listIsPrefixOf ("failed: ".toList) l ∧
          ((l.drop 8).headD 'x').isDigit = true then
        some (digitsToNat ((l.drop 8).takeWhile (·.isDigit)))
      else
        findFailedStatus rest

/-- The status-code extraction at the top of `shouldRetry`: prefer a
truthy `error.response.status`; otherwise, if the message contains
`'failed:'`, match `/failed: (\d+)/` against it. -/
def extractStatus (e : JSError) : Option Nat :=
  match e.responseStatus with
  | some s => if s ≠ 0 then some s else
      if strIncludes e.message "failed:" then findFailedStatus e.message.toList
      else none
  | none =>
      if strIncludes e.message "failed:" then findFailedStatus e.message.toList
      else none

/-- `shouldRetry(error, attempt)`: never once `attempt` reaches
`maxAttempts`; retry 429 and 5xx statuses; do not retry other 4xx; retry
everything else (network and unknown errors). -/
def shouldRetry (e : JSError) (attempt : Nat) : Bool :=
  if attempt ≥ maxAttempts then false
  else
    match extractStatus e with
    | some s =>
        if s ≠ 0 then
          if s = 429 ∨ (500 ≤ s ∧ s < 600) then true
          else if 400 ≤ s ∧ s < 500 then false
          else true
        else true
    | none => true

/-- `categorizeError(error, statusCode)`: classification by status code
when one was passed, otherwise by the error's `name`/`message` shape. -/
def categorizeError (e : JSError) (statusCode : Option Nat) : String :=
  let fallback :=
    if e.name = "TypeError" ∧ strIncludes e.message "fetch" then "NETWORK_ERROR"
    else "UNKNOWN_ERROR"
  match statusCode with
  | some s =>
      if s = 429 then "RATE_LIMIT"
      else if s = 403 then "AUTH_ERROR"
      else if s = 404 then "NOT_FOUND"
      else if 400 ≤ s ∧ s < 500 then "CLIENT_ERROR"
      else if 500 ≤ s then "SERVER_ERROR"
      else fallback
  | none => fallback

/-- The un-jittered capped delay `min(baseDelay * multiplier^(attempt-1),
maxDelay)` — the expectation of `calculateBackoffDelay attempt` over a
uniform jitter draw. -/
def cappedDelay (attempt : Nat) : ℚ :=
  min (baseDelay * backoffMultiplier ^ (attempt - 1)) maxDelay

/-- `calculateBackoffDelay(attempt)` where `rand` models the
`Math.random()` draw (so `0 ≤ rand ≤ 1`); `jitter` is enabled in the
configuration. -/
def calculateBackoffDelay (attempt : Nat) (rand : ℚ) : ℚ :=
  let exponentialDelay := baseDelay * backoffMultiplier ^ (attempt - 1)
  let cappedD := min exponentialDelay maxDelay
  let jitterAmount := cappedD * jitterMax
  let jitter := (rand - 1 / 2) * 2 * jitterAmount
  max 0 (cappedD + jitter)

/-- Rolling one-hour admission window: the `requests` timestamp list. -/
structure RateLimitState where
  requests : List ℚ
deriving DecidableEq, Repr

/-- `canMakeRequest()` at time `now`: prune timestamps older than one
hour in place, then compare the window size against the quota. -/
def canMakeRequest (st : RateLimitState) (now : ℚ) : Bool × RateLimitState :=
  let pruned := st.requests.filter (fun t => t > now - 3600000)
  (pruned.length < MAX_REQUESTS_PER_HOUR, { requests := pruned })

/-- `recordRequest()` at time `now`. -/
def recordRequest (st : RateLimitState) (now : ℚ) : RateLimitState :=
  { requests := st.requests ++ [now] }

end APIRateLimit

namespace NASAApiService

open APIRateLimit

/-- What one `fetch(url)` attempt produces, as `makeRequest` can observe
it: a 2xx response with parsed JSON data, a non-ok response with a status
code and text, or a thrown error (network failure and the like). -/
inductive NetResult where
  | success (data : JSVal)
  | httpError (status : Nat) (statusText : String)
  | thrown (e : JSError)
deriving Repr

/-- Final outcome of `makeRequest`: resolved data or a thrown error. -/
inductive ReqOutcome where
  | ok (data : JSVal)
  | err (e : JSError)
deriving DecidableEq, Repr

/-- Observable record of one `makeRequest` run: its outcome, the number
of `fetch` calls made, the backoff delays slept, the error categories
recorded to the performance monitor (`none` for a success record), and
the final admission-window state. -/
structure MakeReqLog where
  outcome : ReqOutcome
  fetchAttempts : Nat
  sleeps : List ℚ
  monitorCats : List (Option String)
  rlFinal : RateLimitState
deriving Repr

/-- The error `makeRequest` constructs for a non-ok response. -/
def httpErrorOf (status : Nat) (statusText : String) : JSError :=
  { name := "Error",
    message := "API request failed: " ++ toString status ++ " " ++ statusText,
    responseStatus := some status }

/-- The attempt loop of `makeRequest`, from `attempt` up to
`maxAttempts`.  `responses` gives the result of the `fetch` on each
attempt (1-based) and `rands` the `Math.random()` draw used for that
attempt's jitter; `now` is the (frozen) clock.  Each iteration records
the request timestamp, performs the fetch, and on failure consults
`shouldRetry`; a retryable failure records its category, sleeps the
jittered backoff and continues, a non-retryable HTTP failure records its
category, throws, and is re-caught by the surrounding `catch`, which
records a second (status-less) categorization before rethrowing. -/
def makeRequestLoop (responses : Nat → NetResult) (rands : Nat → ℚ) (now : ℚ) :
    (fuel : Nat) → (attempt : Nat) → (lastError : Option JSError) →
    RateLimitState → List ℚ → List (Option String) → Nat → MakeReqLog
  | 0, _, lastError, rl, sleeps, cats, fetches =>
      let e := lastError.getD (httpErrorOf 0 "")
      { outcome := ReqOutcome.err e, fetchAttempts := fetches,
        sleeps := sleeps,
        monitorCats := cats ++ [some (categorizeError e none)], rlFinal := rl }
  | fuel + 1, attempt, _, rl, sleeps, cats, fetches =>
      let rl1 := recordRequest rl now
      match responses attempt with
      | NetResult.success data =>
          { outcome := ReqOutcome.ok data, fetchAttempts := fetches + 1,
            sleeps := sleeps, monitorCats := cats ++ [none], rlFinal := rl1 }
      | NetResult.httpError status statusText =>
          let e := httpErrorOf status statusText
          let info := categorizeError e (some status)
          if shouldRetry e attempt then
            let delay := calculateBackoffDelay attempt (rands attempt)
            makeRequestLoop responses rands now fuel (attempt + 1) (some e) rl1
              (sleeps ++ [delay]) (cats ++ [some info]) (fetches + 1)
          else
            let info2 := categorizeError e none
            { outcome := ReqOutcome.err e, fetchAttempts := fetches + 1,
              sleeps := sleeps,
              monitorCats := cats ++ [some info, some info2], rlFinal := rl1 }
      | NetResult.thrown e =>
          if shouldRetry e attempt then
            let info := categorizeError e none
            let delay := calculateBackoffDelay attempt (rands attempt)
            makeRequestLoop responses rands now fuel (attempt + 1) (some e) rl1
              (sleeps ++ [delay]) (cats ++ [some info]) (fetches + 1)
          else
            let info := categorizeError e none
            { outcome := ReqOutcome.err e, fetchAttempts := fetches + 1,
              sleeps := sleeps, monitorCats := cats ++ [some info], rlFinal := rl1 }

/-- The rate-limit-exceeded error thrown before the attempt loop. -/
def quotaError : JSError :=
  { name := "Error", message := "API rate limit exceeded. Please try again later.",
    responseStatus := none }

/-- `makeRequest(url)` at time `now`: the admission check (which prunes
the window), then — only if admitted — the attempt loop.  On admission
failure it records category `'RATE_LIMIT_EXCEEDED'` to the monitor and
throws without any fetch, sleep, or window record. -/
def makeRequest (rl : RateLimitState) (responses : Nat → NetResult)
    (rands : Nat → ℚ) (now : ℚ) : MakeReqLog :=
  let (can, rl1) := canMakeRequest rl now
  if !can then
    { outcome := ReqOutcome.err quotaError, fetchAttempts := 0, sleeps := [],
      monitorCats := [some "RATE_LIMIT_EXCEEDED"], rlFinal := rl1 }
  else
    makeRequestLoop responses rands now maxAttempts 1 none rl1 [] [] 0

end NASAApiService

/-- The prefix table of spec §6, written exactly in the order the spec
lists it (a second definition, following the spec's words, to compare
with `getCacheType`, which is translated from the source). -/
def specClassify (key : String) : String :=
  if strStartsWith key "manifest_" || strStartsWith key "rover_info_" then
    "static"
  else if strStartsWith key "photos_date_" || strStartsWith key "latest_" then
    "semiStatic"
  else if strStartsWith key "photos_" || strStartsWith key "telemetry_" ||
      strStartsWith key "rover-data-" then
    "dynamic"
  else if strStartsWith key "status_" || strStartsWith key "live_" then
    "realTime"
  else
    "dynamic"

open UnifiedCacheSystem in
/-- Concrete entry used by the C10 witness: an unexpired cached `null`. -/
def c10Entry : CacheEntry :=
  { data := JSVal.vnull, timestamp := 0, expires := 300000,
    accessCount := 0, lastAccessed := 0, type := "dynamic" }

open UnifiedCacheSystem in
/-- Concrete state used by the C10 witness: the `null` entry cached under
`"telemetry_a"`, nothing pending, promise supply at 5, 7 fetches so far. -/
def c10State : DedupState :=
  { cs := { cache := [("telemetry_a", c10Entry)], pendingRequests := [],
            hits := 0, misses := 0, requests := 0, errors := 0 },
    nextId := 5, fetchCount := 7 }

open UnifiedCacheSystem in
/-- The entry produced by the promotion branch of `optimize`: expiry
extended to `min(now + 1.5 * (expires - timestamp), now + staticDuration)`. -/
def promotedEntry (now : ℚ) (e : CacheEntry) : CacheEntry :=
  { e with expires := min (now + (e.expires - e.timestamp) * (3 / 2)) (now + 3600000) }

open UnifiedCacheSystem in
/-- Concrete RealTime-tier entry for the C6 counterexample: 11 accesses,
stored at time 0 with the tier's 60 s TTL. -/
def c6Entry : CacheEntry :=
  { data := JSVal.vobj 0, timestamp := 0, expires := 60000,
    accessCount := 11, lastAccessed := 0, type := "realTime" }

open UnifiedCacheSystem in
/-- Concrete cache state for the C6 counterexample. -/
def c6State : CacheState :=
  { cache := [("status_x", c6Entry)], pendingRequests := [],
    hits := 0, misses := 0, requests := 0, errors := 0 }

open UnifiedCacheSystem in
/-- An entry with `lastAccessed = 0`, used to build an over-capacity
cache whose entries all tie on `lastAccessed` (same-millisecond
accesses). -/
def tieEntry : CacheEntry :=
  { data := JSVal.vobj 1, timestamp := 0, expires := 3600000,
    accessCount := 0, lastAccessed := 0, type := "dynamic" }

open UnifiedCacheSystem in
/-- One thousand filler entries with distinct keys, all tied on
`lastAccessed = 0`. -/
def fillerCache : List (String × CacheEntry) :=
  (List.range 1000).map (fun i => ("photos_" ++ toString i, tieEntry))

open UnifiedCacheSystem in
/-- Over-capacity state for the C9 counterexample: the written key sits
first in insertion order among 1001 entries that all tie on
`lastAccessed`, so the capacity sweep's stable sort keeps it among the
100 eviction victims. -/
def overCapState : CacheState :=
  { cache := ("manifest_perseverance", tieEntry) :: fillerCache,
    pendingRequests := [], hits := 0, misses := 0, requests := 0, errors := 0 }

open UnifiedCacheSystem in
/-- Boolean statement that the cache map holds no unexpired truthy entry
for `key` at time `now` — the condition under which
`deduplicateRequest`'s cache probe cannot short-circuit. -/
def noFreshTruthyB (c : List (String × CacheEntry)) (key : String) (now : ℚ) : Bool :=
  match alookup c key with
  | none => true
  | some e => !e.data.truthy || decide (now > e.expires)

/-! Elementary lemmas about the association-list operations. -/

theorem alookup_ainsert_self {α : Type} (l : List (String × α)) (k : String) (v : α) :
    alookup (ainsert l k v) k = some v := by
  induction l with
  | nil => simp [ainsert, alookup]
  | cons kv rest ih =>
      by_cases h : kv.1 = k
      · simp [ainsert, alookup, h]
      · simp [ainsert, alookup, h, ih]

theorem alookup_ainsert_ne {α : Type} (l : List (String × α)) (k k' : String) (v : α)
    (h : k' ≠ k) : alookup (ainsert l k v) k' = alookup l k' := by
  induction l with
  | nil => simp [ainsert, alookup, Ne.symm h]
  | cons kv rest ih =>
      by_cases h1 : kv.1 = k
      · subst h1
        simp [ainsert, alookup, Ne.symm h]
      · by_cases h2 : kv.1 = k'
        · simp [ainsert, alookup, h1, h2, h]
        · simp [ainsert, alookup, h1, h2, ih]

theorem alookup_aerase_self {α : Type} (l : List (String × α)) (k : String) :
    alookup (aerase l k) k = none := by
  induction l with
  | nil => simp [aerase, alookup]
  | cons kv rest ih =>
      by_cases h : kv.1 = k
      · simpa [aerase, alookup, h] using ih
      · simpa [aerase, alookup, h] using ih

theorem alookup_aerase_ne {α : Type} (l : List (String × α)) (k k' : String)
    (h : k' ≠ k) : alookup (aerase l k) k' = alookup l k' := by
  induction l with
  | nil => simp [aerase, alookup]
  | cons kv rest ih =>
      by_cases h1 : kv.1 = k
      · subst h1
        simp [aerase, alookup, Ne.symm h, ih]
      · by_cases h2 : kv.1 = k'
        · simp [aerase, alookup, h1, h2, h]
        · simp [aerase, alookup, h1, h2, ih]

theorem keysNodup_ainsert {α : Type} (l : List (String × α)) (k : String) (v : α)
    (h : keysNodup l = true) : keysNodup (ainsert l k v) = true := by
  induction l with
  | nil => simp [ainsert, keysNodup, alookup]
  | cons kv rest ih =>
      simp only [keysNodup, Bool.and_eq_true, Option.isNone_iff_eq_none] at h
      by_cases h1 : kv.1 = k
      · subst h1
        simp [ainsert, keysNodup, h.1, h.2]
      · simp only [ainsert, h1, if_false, keysNodup, Bool.and_eq_true,
          Option.isNone_iff_eq_none]
        refine ⟨?_, ih h.2⟩
        rw [alookup_ainsert_ne rest k kv.1 v h1]
        exact h.1

theorem keysNodup_aerase {α : Type} (l : List (String × α)) (k : String)
    (h : keysNodup l = true) : keysNodup (aerase l k) = true := by
  induction l with
  | nil => simp [aerase, keysNodup]
  | cons kv rest ih =>
      simp only [keysNodup, Bool.and_eq_true, Option.isNone_iff_eq_none] at h
      by_cases h1 : kv.1 = k
      · simpa [aerase, h1] using ih h.2
      · simp only [aerase, h1, if_false, keysNodup, Bool.and_eq_true,
          Option.isNone_iff_eq_none]
        refine ⟨?_, ih h.2⟩
        rw [alookup_aerase_ne rest k kv.1 h1]
        exact h.1

theorem ainsert_length {α : Type} (l : List (String × α)) (k : String) (v : α) :
    (ainsert l k v).length ≤ l.length + 1 := by
  induction l with
  | nil => simp [ainsert]
  | cons kv rest ih =>
      by_cases h : kv.1 = k
      · simp [ainsert, h]
      · simp only [ainsert, h, if_false, List.length_cons]
        omega

theorem alookup_aerase_none {α : Type} (l : List (String × α)) (k k' : String)
    (h : alookup l k = none) : alookup (aerase l k') k = none := by
  by_cases hk : k = k'
  · subst hk
    exact alookup_aerase_self l k
  · rw [alookup_aerase_ne l k' k hk]
    exact h

theorem foldl_aerase_none {α : Type} (k : String) (victims : List (String × α)) :
    ∀ c : List (String × α), alookup c k = none →
    alookup (victims.foldl (fun acc kv => aerase acc kv.1) c) k = none := by
  induction victims with
  | nil => intro c h; exact h
  | cons v vs ih =>
      intro c h
      exact ih (aerase c v.1) (alookup_aerase_none c k v.1 h)

theorem foldl_aerase_mem {α : Type} (k : String) (victims : List (String × α))
    (hmem : k ∈ victims.map Prod.fst) :
    ∀ c : List (String × α),
    alookup (victims.foldl (fun acc kv => aerase acc kv.1) c) k = none := by
  induction victims with
  | nil => simp at hmem
  | cons v vs ih =>
      intro c
      rcases List.mem_cons.mp hmem with hk | hk
      · have h1 : alookup (aerase c v.1) k = none := by
          rw [hk]
          exact alookup_aerase_self c v.1
        exact foldl_aerase_none k vs (aerase c v.1) h1
      · exact ih hk (aerase c v.1)

theorem ainsert_head {α : Type} (k : String) (w v : α) (rest : List (String × α)) :
    ainsert ((k, w) :: rest) k v = (k, v) :: rest := by
  simp [ainsert]

open UnifiedCacheSystem in
/-- Helper: inserting in front of a list it is already below or tied
with leaves the stable sort step trivial. -/
theorem insertLastAccessed_le (x : String × CacheEntry)
    (l : List (String × CacheEntry))
    (h : ∀ kv ∈ l, x.2.lastAccessed ≤ kv.2.lastAccessed) :
    insertLastAccessed x l = x :: l := by
  cases l with
  | nil => rfl
  | cons y ys =>
      unfold insertLastAccessed
      rw [if_pos (h y (List.mem_cons_self y ys))]

open UnifiedCacheSystem in
/-- Helper: a list whose entries all tie on `lastAccessed` is already
sorted — the stable sort keeps it as is (insertion order). -/
theorem sortByLastAccessed_const0 (l : List (String × CacheEntry))
    (h : ∀ kv ∈ l, kv.2.lastAccessed = (0 : ℚ)) :
    sortByLastAccessed l = l := by
  induction l with
  | nil => rfl
  | cons x xs ih =>
      unfold sortByLastAccessed
      rw [ih (fun kv hkv => h kv (List.mem_cons_of_mem x hkv))]
      apply insertLastAccessed_le
      intro kv hkv
      rw [h x (List.mem_cons_self x xs), h kv (List.mem_cons_of_mem x hkv)]

open UnifiedCacheSystem in
/-- Helper: below the soft cap the capacity sweep does nothing. -/
theorem updateCacheSize_of_small (c : List (String × CacheEntry))
    (h : c.length ≤ 1000) : updateCacheSize c = c := by
  unfold updateCacheSize
  rw [if_neg]
  omega

open UnifiedCacheSystem in
/-- Helper: a `set`-style insert into a sub-capacity map is still found
afterwards — the sweep does not fire. -/
theorem alookup_updateCacheSize_ainsert (l : List (String × CacheEntry))
    (k : String) (v : CacheEntry) (h : l.length < 1000) :
    alookup (updateCacheSize (ainsert l k v)) k = some v := by
  rw [updateCacheSize_of_small]
  · exact alookup_ainsert_self l k v
  · have := ainsert_length l k v
    omega

open UnifiedCacheSystem in
/-- Helper: in an over-capacity map whose entries all tie on
`lastAccessed = 0`, the head entry — first in insertion order, hence
first among the 100 victims of the stable sort — is evicted by the
capacity sweep. -/
theorem evict_head_alookup_none (k : String) (e : CacheEntry)
    (rest : List (String × CacheEntry)) (he : e.lastAccessed = 0)
    (hrest : ∀ kv ∈ rest, kv.2.lastAccessed = (0 : ℚ))
    (hlen : ((k, e) :: rest).length > 1000) :
    alookup (updateCacheSize ((k, e) :: rest)) k = none := by
  unfold updateCacheSize
  rw [if_pos hlen]
  unfold evictOldest
  have hall : ∀ kv ∈ (k, e) :: rest, kv.2.lastAccessed = (0 : ℚ) := by
    intro kv hkv
    rcases List.mem_cons.mp hkv with h1 | h1
    · rw [h1]
      exact he
    · exact hrest kv h1
  rw [sortByLastAccessed_const0 _ hall]
  rw [show (100 : Nat) = 99 + 1 from rfl, List.take_succ_cons]
  apply foldl_aerase_mem
  simp

open UnifiedCacheSystem in
/-- Helper: `set` at time 0 on a state whose cache already holds the key
first among more than 1000 all-tied entries evicts the key it just
wrote. -/
theorem set_evicts_head (st : CacheState) (key : String) (data : JSVal)
    (customTTL : Option ℚ) (e0 : CacheEntry) (rest : List (String × CacheEntry))
    (hc : st.cache = (key, e0) :: rest)
    (hrest : ∀ kv ∈ rest, kv.2.lastAccessed = (0 : ℚ))
    (hlen : 1000 < rest.length + 1) :
    alookup (UnifiedCacheSystem.set st key data customTTL 0).cache key = none := by
  simp only [UnifiedCacheSystem.set, hc, ainsert_head]
  apply evict_head_alookup_none
  · rfl
  · exact hrest
  · simpa using hlen

/-- C8.  Classification: `getCacheType` (the spec's `classify`) is a pure
function of the key alone — it takes nothing but the key and, in
particular, no clock — and agrees with the §6 prefix table
(`specClassify`) on every key, the fallback tier being `dynamic`. -/
theorem C8_getCacheType_matches_spec_table (key : String) :
    UnifiedCacheSystem.getCacheType key = specClassify key := by
  unfold UnifiedCacheSystem.getCacheType UnifiedCacheSystem.cacheConfig specClassify
  cases hm : strStartsWith key "manifest_" <;>
    cases hr : strStartsWith key "rover_info_" <;>
      cases hpd : strStartsWith key "photos_date_" <;>
        cases hl : strStartsWith key "latest_" <;>
          cases hp : strStartsWith key "photos_" <;>
            cases ht : strStartsWith key "telemetry_" <;>
              cases hrd : strStartsWith key "rover-data-" <;>
                cases hs : strStartsWith key "status_" <;>
                  cases hlv : strStartsWith key "live_" <;>
                    simp [List.find?, hm, hr, hpd, hl, hp, ht, hrd, hs, hlv]

open UnifiedCacheSystem in
/-- Shared helper: what `set` stores under the key, for any TTL override,
when the cache is below the 1000-entry soft cap (so the capacity sweep
does not fire). -/
theorem set_stores (st : CacheState) (key : String) (data : JSVal)
    (customTTL : Option ℚ) (now : ℚ) (hcap : st.cache.length < 1000) :
    alookup (UnifiedCacheSystem.set st key data customTTL now).cache key =
      some { data := data, timestamp := now,
             expires := now +
               (match customTTL with
                | some t => if t ≠ 0 then t else getCacheDuration key
                | none => getCacheDuration key),
             accessCount := 0, lastAccessed := now, type := getCacheType key } := by
  simp only [UnifiedCacheSystem.set]
  exact alookup_updateCacheSize_ainsert st.cache key _ hcap

open UnifiedCacheSystem in
/-- C7 counterexample.  The claim as stated requires `set(key, value, 0)`
to store `expiresAt = now + 0`; at key `"telemetry_a"`, value `1`,
`ttlOverride = 0` and `now = 100` the code instead stores
`expires = 300100 = now + tierDuration`, because `customTTL || duration`
treats the falsy override `0` as absent. -/
theorem C7_counterexample_ttl_zero :
    (UnifiedCacheSystem.set initState "telemetry_a" (JSVal.vnum 1) (some 0) 100).cache =
      [("telemetry_a",
        { data := JSVal.vnum 1, timestamp := 100, expires := 300100,
          accessCount := 0, lastAccessed := 100, type := "dynamic" })] ∧
    (300100 : ℚ) ≠ 100 + 0 := by
  have hd : getCacheDuration "telemetry_a" = 300000 := by decide
  have ht : getCacheType "telemetry_a" = "dynamic" := by decide
  constructor
  · simp [UnifiedCacheSystem.set, initState, ainsert, updateCacheSize, hd, ht]
    norm_num
  · norm_num

open UnifiedCacheSystem in
/-- C7 (amended).  TTL on `set`: for every key, value and optional
`ttlOverride`, on a cache below its 1000-entry soft cap (so the
`updateCacheSize()` capacity sweep at the end of `set` does not fire),
`set(key, value, ttlOverride)` stores an entry whose `createdAt`
(`timestamp`) is `now` and whose `expiresAt` equals
`now + (ttlOverride if it was provided and nonzero, otherwise the tier
duration of classify(key))`; a `ttlOverride` of `0` is treated as absent
by the `customTTL || duration` fallback. -/
theorem C7_set_ttl (st : CacheState) (key : String) (data : JSVal)
    (customTTL : Option ℚ) (now : ℚ) (hcap : st.cache.length < 1000) :
    alookup (UnifiedCacheSystem.set st key data customTTL now).cache key =
      some { data := data, timestamp := now,
             expires := now +
               (match customTTL with
                | some t => if t ≠ 0 then t else getCacheDuration key
                | none => getCacheDuration key),
             accessCount := 0, lastAccessed := now, type := getCacheType key } :=
  set_stores st key data customTTL now hcap

open UnifiedCacheSystem in
/-- C7 witness: a `set` with `ttlOverride = 5` on the empty (sub-cap)
system stores the overridden expiry `100 + 5`, created at `100`. -/
theorem C7_set_ttl_witness :
    alookup (UnifiedCacheSystem.set initState "telemetry_a" (JSVal.vnum 1)
        (some 5) 100).cache "telemetry_a" =
      some { data := JSVal.vnum 1, timestamp := 100,
             expires := 100 +
               (match (some (5:ℚ) : Option ℚ) with
                | some t => if t ≠ 0 then t else getCacheDuration "telemetry_a"
                | none => getCacheDuration "telemetry_a"),
             accessCount := 0, lastAccessed := 100,
             type := getCacheType "telemetry_a" } :=
  C7_set_ttl initState "telemetry_a" (JSVal.vnum 1) (some 5) 100 (by decide)

open UnifiedCacheSystem in
/-- Helper: on a missing key, `get` returns `null` and changes neither
map (only the miss counter). -/
theorem get_miss (st : CacheState) (key : String) (now : ℚ)
    (h : alookup st.cache key = none) :
    (UnifiedCacheSystem.get st key now).1 = JSVal.vnull ∧
    (UnifiedCacheSystem.get st key now).2.cache = st.cache ∧
    (UnifiedCacheSystem.get st key now).2.pendingRequests = st.pendingRequests := by
  refine ⟨?_, ?_, ?_⟩ <;> simp [UnifiedCacheSystem.get, h]

open UnifiedCacheSystem in
/-- C9 counterexample.  The claim as stated fails on an over-capacity
cache: `overCapState` holds 1001 entries, all tied on `lastAccessed`,
with `"manifest_perseverance"` first in insertion order.  `set` of that
key then runs the capacity sweep, whose stable sort keeps the
just-written entry among the 100 least-recently-accessed victims, so the
immediate `get` — at `t = 10`, far inside the 60-minute TTL — returns
the miss value `null` instead of the stored value. -/
theorem C9_counterexample_capacity_eviction :
    (UnifiedCacheSystem.get
        (UnifiedCacheSystem.set overCapState "manifest_perseverance" (JSVal.vobj 0)
          none 0)
        "manifest_perseverance" 10).1 = JSVal.vnull ∧
    (10 : ℚ) < 0 + getCacheDuration "manifest_perseverance" ∧
    JSVal.vnull ≠ JSVal.vobj 0 := by
  have hfill : ∀ kv ∈ fillerCache, kv.2.lastAccessed = (0 : ℚ) := by
    intro kv hkv
    simp only [fillerCache, List.mem_map] at hkv
    obtain ⟨i, _, rfl⟩ := hkv
    rfl
  have hlen : 1000 < fillerCache.length + 1 := by
    simp [fillerCache]
  have hmiss := set_evicts_head overCapState "manifest_perseverance" (JSVal.vobj 0)
    none tieEntry fillerCache rfl hfill hlen
  refine ⟨(get_miss _ _ _ hmiss).1, ?_, by decide⟩
  rw [show getCacheDuration "manifest_perseverance" = 3600000 from by decide]
  norm_num

open UnifiedCacheSystem in
/-- C9 (amended).  Set/get round trip against the TTL, on a cache below
its 1000-entry soft cap (so the capacity sweep at the end of `set`
cannot evict the just-written entry): after `set(k, v)` at time `now`
(no override), a `get(k)` at any time `t` strictly before the tier TTL
has elapsed returns `v`, and once the TTL has elapsed (`t` past
`now + tierDuration`) `get(k)` returns the miss value `null` and the
entry has been deleted from the cache map. -/
theorem C9_set_get_roundtrip (st : CacheState) (key : String) (data : JSVal)
    (now t : ℚ) (hcap : st.cache.length < 1000) :
    (t < now + getCacheDuration key →
      (UnifiedCacheSystem.get (UnifiedCacheSystem.set st key data none now) key t).1
        = data) ∧
    (t > now + getCacheDuration key →
      (UnifiedCacheSystem.get (UnifiedCacheSystem.set st key data none now) key t).1
        = JSVal.vnull ∧
      alookup (UnifiedCacheSystem.get (UnifiedCacheSystem.set st key data none now)
          key t).2.cache key = none) := by
  have hs := set_stores st key data none now hcap
  constructor
  · intro hlt
    have hnot : ¬ t > now + getCacheDuration key := by linarith
    simp [UnifiedCacheSystem.get, hs, hnot]
  · intro hgt
    simp [UnifiedCacheSystem.get, hs, hgt, alookup_aerase_self]

open UnifiedCacheSystem in
/-- C9 witness (spec Scenario A): `set("manifest_perseverance", M)` at
time 0; `get` at +59 min (3 540 000 ms) returns `M`; `get` at +61 min
(3 660 000 ms) returns the miss value and the entry is gone. -/
theorem C9_witness :
    (UnifiedCacheSystem.get
        (UnifiedCacheSystem.set initState "manifest_perseverance" (JSVal.vobj 0) none 0)
        "manifest_perseverance" 3540000).1 = JSVal.vobj 0 ∧
    (UnifiedCacheSystem.get
        (UnifiedCacheSystem.set initState "manifest_perseverance" (JSVal.vobj 0) none 0)
        "manifest_perseverance" 3660000).1 = JSVal.vnull := by
  have hd : getCacheDuration "manifest_perseverance" = 3600000 := by decide
  refine ⟨(C9_set_get_roundtrip initState "manifest_perseverance" (JSVal.vobj 0) 0
      3540000 (by decide)).1 ?_,
    ((C9_set_get_roundtrip initState "manifest_perseverance" (JSVal.vobj 0) 0
      3660000 (by decide)).2 ?_).1⟩
  · rw [hd]; norm_num
  · rw [hd]; norm_num

open UnifiedCacheSystem in
/-- C10.  Falsy-value edge case: if the cache holds an unexpired entry
for `key` whose payload is falsy (`null`, `false`, `0`, or `""`) and no
request is pending for `key`, then `deduplicateRequest(key, fetcher)`
treats the entry as a miss and invokes the fetcher (a fresh fetch is
started and the invocation count rises); moreover, at the public `get`
interface a cached `null` payload is indistinguishable from an absent
entry — both return `null`. -/
theorem C10_falsy_treated_as_miss (st : DedupState) (key : String) (now : ℚ)
    (e : CacheEntry)
    (he : alookup st.cs.cache key = some e)
    (hfalsy : e.data.truthy = false)
    (hfresh : ¬ now > e.expires)
    (hp : alookup st.cs.pendingRequests key = none) :
    (deduplicateRequest st key now).1 = DedupOutcome.startedFetch st.nextId ∧
    (deduplicateRequest st key now).2.fetchCount = st.fetchCount + 1 ∧
    (∀ (st2 : CacheState) (e2 : CacheEntry), alookup st2.cache key = some e2 →
      e2.data = JSVal.vnull → ¬ now > e2.expires →
      (UnifiedCacheSystem.get st2 key now).1 = JSVal.vnull) ∧
    (∀ st3 : CacheState, alookup st3.cache key = none →
      (UnifiedCacheSystem.get st3 key now).1 = JSVal.vnull) := by
  refine ⟨?_, ?_, ?_, ?_⟩
  · simp [deduplicateRequest, UnifiedCacheSystem.get, he, hfresh, hfalsy, hp]
  · simp [deduplicateRequest, UnifiedCacheSystem.get, he, hfresh, hfalsy, hp]
  · intro st2 e2 h2 hnull h2f
    simp [UnifiedCacheSystem.get, h2, h2f, hnull]
  · intro st3 h3
    simp [UnifiedCacheSystem.get, h3]

open UnifiedCacheSystem in
/-- C10 witness: on `c10State` (an unexpired `null` entry for
`"telemetry_a"`, no pending request) the fetcher is invoked again:
promise 5 is started and the invocation count goes from 7 to 8. -/
theorem C10_witness :
    (deduplicateRequest c10State "telemetry_a" 10).1 = DedupOutcome.startedFetch 5 ∧
    (deduplicateRequest c10State "telemetry_a" 10).2.fetchCount = 8 := by
  have h := C10_falsy_treated_as_miss c10State "telemetry_a" 10 c10Entry
    (by decide) (by decide) (by decide) (by decide)
  exact ⟨h.1, h.2.1⟩

open APIRateLimit in
/-- C5.  Backoff bounds: for every attempt `n ≥ 1` and every jitter draw
`r ∈ [0,1]`, `calculateBackoffDelay(n)` equals the capped delay
`min(baseDelay * multiplier^(n-1), maxDelay)` perturbed by at most
`jitterMax` (10%) of that capped value, is never negative, never exceeds
`maxDelay * (1 + jitterMax)`, and the un-jittered capped delay (its
expectation over a symmetric draw) is monotonically non-decreasing in
`n`. -/
theorem C5_backoff_bounds (n : Nat) (r : ℚ) (hn : 1 ≤ n) (h0 : 0 ≤ r) (h1 : r ≤ 1) :
    |calculateBackoffDelay n r - cappedDelay n| ≤ jitterMax * cappedDelay n ∧
    0 ≤ calculateBackoffDelay n r ∧
    calculateBackoffDelay n r ≤ maxDelay * (1 + jitterMax) ∧
    cappedDelay n ≤ cappedDelay (n + 1) := by
  have hc0 : 0 ≤ cappedDelay n := by
    unfold cappedDelay baseDelay backoffMultiplier maxDelay
    have h2 : (0:ℚ) ≤ 1000 * 2 ^ (n - 1) := by positivity
    have h3 : (0:ℚ) ≤ 10000 := by norm_num
    exact le_min h2 h3
  have hcM : cappedDelay n ≤ maxDelay := min_le_right _ _
  have hjr : |r - 1/2| ≤ 1/2 := by
    rw [abs_le]
    constructor <;> linarith
  have hjab : |(r - 1/2) * 2 * (cappedDelay n * jitterMax)| ≤ jitterMax * cappedDelay n := by
    rw [abs_mul, abs_mul]
    have h2 : |(2:ℚ)| = 2 := by norm_num
    have h3 : |cappedDelay n * jitterMax| = cappedDelay n * jitterMax := by
      rw [abs_of_nonneg]
      unfold jitterMax
      positivity
    rw [h2, h3]
    unfold jitterMax
    nlinarith [abs_nonneg (r - 1/2), hjr, hc0]
  have hsum0 : 0 ≤ cappedDelay n + (r - 1/2) * 2 * (cappedDelay n * jitterMax) := by
    have h2 := neg_abs_le ((r - 1/2) * 2 * (cappedDelay n * jitterMax))
    have h3 : jitterMax * cappedDelay n ≤ cappedDelay n := by
      unfold jitterMax
      linarith
    nlinarith [hjab]
  have heq : calculateBackoffDelay n r =
      cappedDelay n + (r - 1/2) * 2 * (cappedDelay n * jitterMax) := by
    unfold calculateBackoffDelay cappedDelay
    rw [max_eq_right]
    exact hsum0
  refine ⟨?_, ?_, ?_, ?_⟩
  · rw [heq]
    simpa using hjab
  · rw [heq]; exact hsum0
  · rw [heq]
    have h2 := le_abs_self ((r - 1/2) * 2 * (cappedDelay n * jitterMax))
    have h3 : jitterMax * cappedDelay n ≤ jitterMax * maxDelay := by
      unfold jitterMax
      unfold maxDelay at hcM ⊢
      linarith
    unfold jitterMax maxDelay at *
    nlinarith
  · unfold cappedDelay
    apply min_le_min _ le_rfl
    unfold baseDelay backoffMultiplier
    have h2 : n - 1 ≤ n + 1 - 1 := by omega
    have h3 : (1:ℚ) ≤ 2 := by norm_num
    have := pow_le_pow_right₀ h3 h2
    linarith

open APIRateLimit in
/-- C5 witness: at attempt 1 with jitter draw 0 the delay is 900 ms,
within 10% of the capped 1000 ms, non-negative, below the 11 000 ms
ceiling, and the capped delay does not decrease towards attempt 2. -/
theorem C5_backoff_bounds_witness :
    |calculateBackoffDelay 1 0 - cappedDelay 1| ≤ jitterMax * cappedDelay 1 ∧
    0 ≤ calculateBackoffDelay 1 0 ∧
    calculateBackoffDelay 1 0 ≤ maxDelay * (1 + jitterMax) ∧
    cappedDelay 1 ≤ cappedDelay 2 :=
  C5_backoff_bounds 1 0 (by decide) (by decide) (by decide)

open APIRateLimit in
/-- Helper: `shouldRetry` refuses plain 4xx statuses (other than 429). -/
theorem shouldRetry_client_false (e : JSError) (n : Nat) (s : Nat)
    (hs : extractStatus e = some s) (h4 : 400 ≤ s) (h5 : s < 500) (h429 : s ≠ 429) :
    shouldRetry e n = false := by
  unfold shouldRetry
  rw [hs]
  have h0 : s ≠ 0 := by omega
  have hr : ¬ (s = 429 ∨ (500 ≤ s ∧ s < 600)) := by omega
  have hc : 400 ≤ s ∧ s < 500 := ⟨h4, h5⟩
  by_cases hmax : n ≥ maxAttempts
  · simp [hmax]
  · simp [hmax, h0, hr, hc]

open APIRateLimit in
/-- Helper: below `maxAttempts`, `shouldRetry` accepts any status that is
not a plain 4xx — 429, 5xx and beyond, 0, and sub-400 codes. -/
theorem shouldRetry_other_true (e : JSError) (n : Nat) (s : Nat)
    (hs : extractStatus e = some s) (h : s = 429 ∨ s < 400 ∨ 500 ≤ s)
    (hmax : n < maxAttempts) : shouldRetry e n = true := by
  unfold shouldRetry
  rw [hs]
  have hm : ¬ n ≥ maxAttempts := by omega
  by_cases h0 : s = 0
  · simp [hm, h0]
  · by_cases hr : s = 429 ∨ (500 ≤ s ∧ s < 600)
    · simp [hm, h0, hr]
    · have hc : ¬ (400 ≤ s ∧ s < 500) := by omega
      simp [hm, h0, hr, hc]

open APIRateLimit in
/-- Helper: below `maxAttempts`, `shouldRetry` accepts a status-less
error. -/
theorem shouldRetry_none_true (e : JSError) (n : Nat)
    (hs : extractStatus e = none) (hmax : n < maxAttempts) :
    shouldRetry e n = true := by
  unfold shouldRetry
  rw [hs]
  have hm : ¬ n ≥ maxAttempts := by omega
  simp [hm]

open APIRateLimit in
/-- C4.  Retry policy by category (classification paired with the status
`shouldRetry` itself extracts from the error, as in `makeRequest`'s
response path): errors classified `CLIENT_ERROR`, `AUTH_ERROR` or
`NOT_FOUND` (plain 4xx other than 429) are never retried at any attempt
count; errors classified `SERVER_ERROR` (5xx), `RATE_LIMIT` (429) or
`NETWORK_ERROR` are retried whenever `attempt < maxAttempts`; and no
error is retried once `attempt ≥ maxAttempts`. -/
theorem C4_retry_policy (e : JSError) (n : Nat) :
    ((categorizeError e (extractStatus e) = "CLIENT_ERROR" ∨
      categorizeError e (extractStatus e) = "AUTH_ERROR" ∨
      categorizeError e (extractStatus e) = "NOT_FOUND") →
        shouldRetry e n = false) ∧
    (n < maxAttempts →
      (categorizeError e (extractStatus e) = "SERVER_ERROR" ∨
       categorizeError e (extractStatus e) = "RATE_LIMIT" ∨
       categorizeError e (extractStatus e) = "NETWORK_ERROR") →
        shouldRetry e n = true) ∧
    (n ≥ maxAttempts → shouldRetry e n = false) := by
  refine ⟨?_, ?_, ?_⟩
  · intro hcat
    cases hs : extractStatus e with
    | none =>
        rw [hs] at hcat
        unfold categorizeError at hcat
        by_cases hfb : e.name = "TypeError" ∧ strIncludes e.message "fetch" = true
        · simp [hfb] at hcat
        · simp [hfb] at hcat
    | some s =>
        rw [hs] at hcat
        unfold categorizeError at hcat
        by_cases h429 : s = 429
        · simp [h429] at hcat
        · by_cases h4 : 400 ≤ s ∧ s < 500
          · exact shouldRetry_client_false e n s hs h4.1 h4.2 h429
          · exfalso
            have h403 : s ≠ 403 := by omega
            have h404 : s ≠ 404 := by omega
            by_cases h5 : 500 ≤ s
            · simp [h429, h403, h404, h4, h5] at hcat
            · by_cases hfb : e.name = "TypeError" ∧ strIncludes e.message "fetch" = true
              · simp [h429, h403, h404, h4, h5, hfb] at hcat
              · simp [h429, h403, h404, h4, h5, hfb] at hcat
  · intro hmax hcat
    cases hs : extractStatus e with
    | none => exact shouldRetry_none_true e n hs hmax
    | some s =>
        rw [hs] at hcat
        unfold categorizeError at hcat
        by_cases h429 : s = 429
        · exact shouldRetry_other_true e n s hs (Or.inl h429) hmax
        · by_cases h5 : 500 ≤ s
          · exact shouldRetry_other_true e n s hs (Or.inr (Or.inr h5)) hmax
          · by_cases h4 : 400 ≤ s ∧ s < 500
            · exfalso
              by_cases h403 : s = 403
              · simp [h429, h403] at hcat
              · by_cases h404 : s = 404
                · simp [h429, h403, h404] at hcat
                · simp [h429, h403, h404, h4, h5] at hcat
            · have hlt : s < 400 := by omega
              exact shouldRetry_other_true e n s hs (Or.inr (Or.inl hlt)) hmax
  · intro hmax
    unfold shouldRetry
    simp [hmax]

/-- C4 witness: a 404 HTTP error is classified `NOT_FOUND` and not
retried at attempt 1; a 503 HTTP error is classified `SERVER_ERROR` and
retried at attempt 1 (< 4 = maxAttempts); nothing is retried at
attempt 4. -/
theorem C4_retry_policy_witness :
    APIRateLimit.shouldRetry
      { name := "Error", message := "API request failed: 404 Not Found",
        responseStatus := some 404 } 1 = false ∧
    APIRateLimit.shouldRetry
      { name := "Error", message := "API request failed: 503 Service Unavailable",
        responseStatus := some 503 } 1 = true ∧
    APIRateLimit.shouldRetry
      { name := "Error", message := "API request failed: 503 Service Unavailable",
        responseStatus := some 503 } 4 = false := by
  refine ⟨(C4_retry_policy
      { name := "Error", message := "API request failed: 404 Not Found",
        responseStatus := some 404 } 1).1 ?_,
    ((C4_retry_policy
      { name := "Error", message := "API request failed: 503 Service Unavailable",
        responseStatus := some 503 } 1).2.1 (by decide) ?_),
    ((C4_retry_policy
      { name := "Error", message := "API request failed: 503 Service Unavailable",
        responseStatus := some 503 } 4).2.2 (by decide))⟩
  · right; right; decide
  · left; decide

open APIRateLimit NASAApiService in
/-- Shared helper: the over-quota admission path of `makeRequest`.  When
the pruned one-hour window already holds at least the quota of
timestamps, `makeRequest` throws the rate-limit error at once: no fetch,
no sleep, one monitor record with category `'RATE_LIMIT_EXCEEDED'`, and
the window keeps exactly its pruned timestamps (nothing recorded). -/
theorem makeRequest_over_quota (rl : RateLimitState) (responses : Nat → NetResult)
    (rands : Nat → ℚ) (now : ℚ)
    (h : MAX_REQUESTS_PER_HOUR ≤
        (rl.requests.filter (fun t => t > now - 3600000)).length) :
    makeRequest rl responses rands now =
      { outcome := ReqOutcome.err quotaError, fetchAttempts := 0, sleeps := [],
        monitorCats := [some "RATE_LIMIT_EXCEEDED"],
        rlFinal := { requests := rl.requests.filter (fun t => t > now - 3600000) } } := by
  unfold makeRequest canMakeRequest
  have hlt : ¬ (rl.requests.filter (fun t => t > now - 3600000)).length
      < MAX_REQUESTS_PER_HOUR := by omega
  simp [hlt]

open APIRateLimit NASAApiService in
/-- C3 counterexample.  With a window of 1000 fresh timestamps (the full
quota) the next `makeRequest` does fail immediately — but the error
category it records to the monitor is the code's `'RATE_LIMIT_EXCEEDED'`,
not `QUOTA_EXCEEDED` as the claim states; no `QUOTA_EXCEEDED` category
exists anywhere in the code. -/
theorem C3_counterexample_category_name :
    (makeRequest { requests := List.replicate 1000 0 }
        (fun _ => NetResult.success (JSVal.vobj 0)) (fun _ => 1 / 2) 0).monitorCats =
      [some "RATE_LIMIT_EXCEEDED"] ∧
    (some "RATE_LIMIT_EXCEEDED" : Option String) ≠ some "QUOTA_EXCEEDED" := by
  constructor
  · have h : ((List.replicate 1000 (0:ℚ)).filter (fun t => t > 0 - 3600000)).length
        = 1000 := by
      rw [List.filter_replicate]
      norm_num
    rw [makeRequest_over_quota _ _ _ _ (by rw [h]; exact le_rfl)]
  · decide

open APIRateLimit NASAApiService in
/-- C3 (amended).  Admission control: when the rolling one-hour window
already holds quota-many (1000) request timestamps, the next call to
`makeRequest` (the spec's `execute`) fails immediately — throwing an
untyped `Error` whose monitor-recorded category is the code's
`'RATE_LIMIT_EXCEEDED'` (the spec's `QUOTA_EXCEEDED`; distinct from the
per-attempt `RATE_LIMIT` category) — before any network attempt, without
consuming a retry attempt (the attempt loop is never entered, no backoff
sleep occurs) and without recording a request in the window. -/
theorem C3_admission_control (rl : RateLimitState) (responses : Nat → NetResult)
    (rands : Nat → ℚ) (now : ℚ)
    (h : MAX_REQUESTS_PER_HOUR ≤
        (rl.requests.filter (fun t => t > now - 3600000)).length) :
    (makeRequest rl responses rands now).outcome = ReqOutcome.err quotaError ∧
    (makeRequest rl responses rands now).fetchAttempts = 0 ∧
    (makeRequest rl responses rands now).sleeps = [] ∧
    (makeRequest rl responses rands now).monitorCats = [some "RATE_LIMIT_EXCEEDED"] ∧
    (makeRequest rl responses rands now).rlFinal.requests =
      rl.requests.filter (fun t => t > now - 3600000) := by
  rw [makeRequest_over_quota rl responses rands now h]
  exact ⟨rfl, rfl, rfl, rfl, rfl⟩

open APIRateLimit NASAApiService in
/-- C3 witness: a window of exactly 1000 timestamps at time 0 satisfies
the over-quota hypothesis, and the call at time 0 fails immediately with
zero fetch attempts. -/
theorem C3_admission_control_witness :
    MAX_REQUESTS_PER_HOUR ≤
      (((List.replicate 1000 (0:ℚ))).filter (fun t => t > 0 - 3600000)).length ∧
    (makeRequest { requests := List.replicate 1000 0 }
        (fun _ => NetResult.success (JSVal.vobj 0)) (fun _ => 1 / 2) 0).outcome =
      ReqOutcome.err quotaError ∧
    (makeRequest { requests := List.replicate 1000 0 }
        (fun _ => NetResult.success (JSVal.vobj 0)) (fun _ => 1 / 2) 0).fetchAttempts
      = 0 := by
  have h : MAX_REQUESTS_PER_HOUR ≤
      (((List.replicate 1000 (0:ℚ))).filter (fun t => t > 0 - 3600000)).length := by
    rw [List.filter_replicate]
    norm_num [MAX_REQUESTS_PER_HOUR]
  have hc := C3_admission_control { requests := List.replicate 1000 0 }
    (fun _ => NetResult.success (JSVal.vobj 0)) (fun _ => 1 / 2) 0 h
  exact ⟨h, hc.1, hc.2.1⟩

open UnifiedCacheSystem in
/-- Helper: the `optimize` loop body never changes an entry's key — it
removes the entry, promotes it in place, or keeps it as is. -/
theorem optimizeEntry_cases (now : ℚ) (k : String) (e : CacheEntry) :
    optimizeEntry now (k, e) = EntryFate.removed ∨
    (∃ e2, optimizeEntry now (k, e) = EntryFate.promoted (k, e2)) ∨
    optimizeEntry now (k, e) = EntryFate.kept (k, e) := by
  dsimp only [optimizeEntry]
  split_ifs with h1 h2
  · exact Or.inl rfl
  · exact Or.inr (Or.inl ⟨_, rfl⟩)
  · exact Or.inr (Or.inr rfl)

open UnifiedCacheSystem in
/-- Helper: the `optimize` sweep introduces no entry under an absent key. -/
theorem alookup_optimizeLoop_none (now : ℚ) (l : List (String × CacheEntry))
    (k : String) (h : alookup l k = none) :
    alookup (optimizeLoop now l).1 k = none := by
  induction l with
  | nil => simpa [optimizeLoop] using h
  | cons kv rest ih =>
      obtain ⟨k0, e0⟩ := kv
      by_cases hk : k0 = k
      · simp [alookup, hk] at h
      · simp only [alookup, hk, if_false] at h
        rcases optimizeEntry_cases now k0 e0 with hf | ⟨e2, hf⟩ | hf <;>
          simp [optimizeLoop, hf, alookup, hk, ih h]

open UnifiedCacheSystem in
/-- Helper: on a duplicate-free cache map, the entry found under `k`
after the `optimize` sweep is exactly the fate `optimizeEntry` assigns to
the entry that was under `k` before it. -/
theorem alookup_optimizeLoop (now : ℚ) (l : List (String × CacheEntry))
    (k : String) (e : CacheEntry) (hnd : keysNodup l = true)
    (h : alookup l k = some e) :
    alookup (optimizeLoop now l).1 k =
      (match optimizeEntry now (k, e) with
       | EntryFate.removed => none
       | EntryFate.promoted kv2 => some kv2.2
       | EntryFate.kept kv2 => some kv2.2) := by
  induction l with
  | nil => simp [alookup] at h
  | cons kv rest ih =>
      obtain ⟨k0, e0⟩ := kv
      simp only [keysNodup, Bool.and_eq_true, Option.isNone_iff_eq_none] at hnd
      by_cases hk : k0 = k
      · subst hk
        have h2 : e0 = e := by simpa [alookup] using h
        subst h2
        rcases optimizeEntry_cases now k0 e0 with hf | ⟨e2, hf⟩ | hf
        · rw [hf]
          simp [optimizeLoop, hf, alookup_optimizeLoop_none now rest k0 hnd.1]
        · rw [hf]
          simp [optimizeLoop, hf, alookup]
        · rw [hf]
          simp [optimizeLoop, hf, alookup]
      · simp only [alookup, hk, if_false] at h
        rcases optimizeEntry_cases now k0 e0 with hf | ⟨e2, hf⟩ | hf <;>
          simp [optimizeLoop, hf, alookup, hk, ih hnd.2 h]

open UnifiedCacheSystem in
/-- C6 counterexample.  The claim says RealTime-tier entries are never
promoted past their own 60 s ceiling, but `optimize` excludes only the
`static` tier from promotion: at `now = 100000` the frequently-accessed
RealTime entry under `"status_x"` is promoted to
`expires = 190000 = now + 90000`, past `now + 60000`. -/
theorem C6_counterexample_realtime_promoted :
    alookup (optimize c6State 100000).1.cache "status_x" =
      some { data := JSVal.vobj 0, timestamp := 0, expires := 190000,
             accessCount := 11, lastAccessed := 0, type := "realTime" } ∧
    (190000 : ℚ) > 100000 + 60000 := by
  constructor
  · dsimp only [optimize, optimizeLoop, optimizeEntry, c6State, c6Entry]
    norm_num [alookup]
  · norm_num

open UnifiedCacheSystem in
/-- C6 (amended).  `optimize()` maintenance, per entry of a
duplicate-free cache map: an entry with zero accesses whose age exceeds
twice its tier TTL is removed; an entry with `accessCount` above the
threshold (10) whose tier is not `static` — RealTime entries included,
which can thereby exceed their own 60 s ceiling — has its `expires` set
to `min(now + 1.5 * (expires - timestamp), now + staticDuration)`; every
other entry (the `static` tier in particular) is left unchanged. -/
theorem C6_optimize_maintenance (st : CacheState) (now : ℚ) (k : String)
    (e : CacheEntry) (hnd : keysNodup st.cache = true)
    (h : alookup st.cache k = some e) :
    ((e.accessCount = 0 ∧ now - e.timestamp > 2 * getCacheDuration k) →
      alookup (optimize st now).1.cache k = none) ∧
    (e.accessCount > 10 → e.type ≠ "static" →
      alookup (optimize st now).1.cache k = some (promotedEntry now e)) ∧
    (¬ (e.accessCount = 0 ∧ now - e.timestamp > 2 * getCacheDuration k) →
      ¬ (e.accessCount > 10 ∧ e.type ≠ "static") →
      alookup (optimize st now).1.cache k = some e) := by
  have hl := alookup_optimizeLoop now st.cache k e hnd h
  have hcache : (optimize st now).1.cache = (optimizeLoop now st.cache).1 := rfl
  refine ⟨?_, ?_, ?_⟩
  · intro hremove
    rw [hcache, hl]
    dsimp only [optimizeEntry]
    rw [if_pos hremove]
  · intro hcount htype
    rw [hcache, hl]
    have hnotrm : ¬ (e.accessCount = 0 ∧ now - e.timestamp > 2 * getCacheDuration k) := by
      intro hc
      omega
    dsimp only [optimizeEntry, promotedEntry]
    rw [if_neg hnotrm, if_pos ⟨hcount, htype⟩]
  · intro h1 h2
    rw [hcache, hl]
    dsimp only [optimizeEntry]
    rw [if_neg h1, if_neg h2]

open UnifiedCacheSystem in
/-- C6 witness: on the concrete state `c6State` (a RealTime entry with 11
accesses) the promotion branch of the amended theorem applies and yields
the extended expiry. -/
theorem C6_optimize_maintenance_witness :
    alookup (optimize c6State 100000).1.cache "status_x" =
      some (promotedEntry 100000 c6Entry) :=
  (C6_optimize_maintenance c6State 100000 "status_x" c6Entry (by decide)
    (by decide)).2.1 (by decide) (by decide)

open UnifiedCacheSystem in
/-- Helper: under `noFreshTruthyB`, a `get` returns a falsy value, keeps
the no-fresh-truthy condition, and leaves the pending map untouched. -/
theorem get_no_truthy (st : CacheState) (key : String) (now : ℚ)
    (hc : noFreshTruthyB st.cache key now = true) :
    (UnifiedCacheSystem.get st key now).1.truthy = false ∧
    noFreshTruthyB (UnifiedCacheSystem.get st key now).2.cache key now = true ∧
    (UnifiedCacheSystem.get st key now).2.pendingRequests = st.pendingRequests := by
  unfold noFreshTruthyB at hc
  cases halo : alookup st.cache key with
  | none =>
      refine ⟨?_, ?_, ?_⟩ <;>
        simp [UnifiedCacheSystem.get, halo, noFreshTruthyB, JSVal.truthy]
  | some e =>
      rw [halo] at hc
      by_cases hexp : now > e.expires
      · refine ⟨?_, ?_, ?_⟩ <;>
          simp [UnifiedCacheSystem.get, halo, hexp, noFreshTruthyB, JSVal.truthy,
            alookup_aerase_self]
      · have htr : e.data.truthy = false := by
          simp [hexp] at hc
          exact hc
        refine ⟨?_, ?_, ?_⟩ <;>
          simp [UnifiedCacheSystem.get, halo, hexp, htr, noFreshTruthyB,
            alookup_ainsert_self]

open UnifiedCacheSystem in
/-- Helper: a `deduplicateRequest` arriving while `key` is pending (and
the cache has no fresh truthy entry) joins the existing promise: no
fetcher invocation, no new promise, pending map unchanged. -/
theorem deduplicateRequest_join (st : DedupState) (key : String) (now : ℚ) (p : Nat)
    (hc : noFreshTruthyB st.cs.cache key now = true)
    (hp : alookup st.cs.pendingRequests key = some p) :
    (deduplicateRequest st key now).1 = DedupOutcome.joinedPending p ∧
    (deduplicateRequest st key now).2.cs.pendingRequests = st.cs.pendingRequests ∧
    (deduplicateRequest st key now).2.nextId = st.nextId ∧
    (deduplicateRequest st key now).2.fetchCount = st.fetchCount ∧
    noFreshTruthyB (deduplicateRequest st key now).2.cs.cache key now = true := by
  obtain ⟨h1, h2, h3⟩ := get_no_truthy st.cs key now hc
  refine ⟨?_, ?_, ?_, ?_, ?_⟩ <;>
    simp [deduplicateRequest, h1, h3, hp, h2]

open UnifiedCacheSystem in
/-- Helper: a `deduplicateRequest` arriving with nothing cached fresh and
truthy and nothing pending starts the fetch: the fetcher is invoked
(count rises by one) and the fresh promise `st.nextId` is registered
under `key`. -/
theorem deduplicateRequest_start (st : DedupState) (key : String) (now : ℚ)
    (hc : noFreshTruthyB st.cs.cache key now = true)
    (hp : alookup st.cs.pendingRequests key = none) :
    (deduplicateRequest st key now).1 = DedupOutcome.startedFetch st.nextId ∧
    (deduplicateRequest st key now).2.cs.pendingRequests =
      ainsert st.cs.pendingRequests key st.nextId ∧
    (deduplicateRequest st key now).2.nextId = st.nextId + 1 ∧
    (deduplicateRequest st key now).2.fetchCount = st.fetchCount + 1 ∧
    noFreshTruthyB (deduplicateRequest st key now).2.cs.cache key now = true := by
  obtain ⟨h1, h2, h3⟩ := get_no_truthy st.cs key now hc
  refine ⟨?_, ?_, ?_, ?_, ?_⟩ <;>
    simp [deduplicateRequest, h1, h3, hp, h2]

open UnifiedCacheSystem in
/-- Helper: any number of back-to-back callers arriving while `key` is
pending all join the same promise `p`; the pending map, the promise
supply and the fetch count never move. -/
theorem deduplicateCalls_join (key : String) (now : ℚ) (p : Nat) (m : Nat) :
    ∀ st : DedupState, noFreshTruthyB st.cs.cache key now = true →
    alookup st.cs.pendingRequests key = some p →
    (deduplicateCalls st key now m).1 =
      List.replicate m (DedupOutcome.joinedPending p) ∧
    (deduplicateCalls st key now m).2.cs.pendingRequests = st.cs.pendingRequests ∧
    (deduplicateCalls st key now m).2.nextId = st.nextId ∧
    (deduplicateCalls st key now m).2.fetchCount = st.fetchCount := by
  induction m with
  | zero =>
      intro st hc hp
      exact ⟨rfl, rfl, rfl, rfl⟩
  | succ m ih =>
      intro st hc hp
      obtain ⟨j1, j2, j3, j4, j5⟩ := deduplicateRequest_join st key now p hc hp
      have hp2 : alookup (deduplicateRequest st key now).2.cs.pendingRequests key
          = some p := by rw [j2]; exact hp
      obtain ⟨i1, i2, i3, i4⟩ := ih (deduplicateRequest st key now).2 j5 hp2
      refine ⟨?_, ?_, ?_, ?_⟩
      · show ((deduplicateRequest st key now).1 ::
            (deduplicateCalls (deduplicateRequest st key now).2 key now m).1) = _
        rw [j1, i1, List.replicate_succ]
      · show (deduplicateCalls (deduplicateRequest st key now).2 key now m).2.cs.pendingRequests = _
        rw [i2, j2]
      · show (deduplicateCalls (deduplicateRequest st key now).2 key now m).2.nextId = _
        rw [i3, j3]
      · show (deduplicateCalls (deduplicateRequest st key now).2 key now m).2.fetchCount = _
        rw [i4, j4]

open UnifiedCacheSystem in
/-- C1.  Single-flight guarantee: when `n ≥ 1` callers invoke
`deduplicateRequest(key, fetcher)` back to back while the cache holds no
unexpired truthy entry for `key` and nothing is pending yet, the fetcher
is invoked exactly once (the invocation count rises by exactly one); the
first caller starts promise `st.nextId` and every later caller joins that
same promise — so every caller holds the identical shared promise and
observes its one settled outcome (the same resolved value or the same
error); and the pending map, which maps `key` to that single promise
afterwards, keeps pairwise-distinct keys, so at most one pending request
exists per key at any instant. -/
theorem C1_single_flight (st : DedupState) (key : String) (now : ℚ) (n : Nat)
    (hn : 1 ≤ n)
    (hc : noFreshTruthyB st.cs.cache key now = true)
    (hp : alookup st.cs.pendingRequests key = none)
    (hnd : keysNodup st.cs.pendingRequests = true) :
    (deduplicateCalls st key now n).1 =
      DedupOutcome.startedFetch st.nextId ::
        List.replicate (n - 1) (DedupOutcome.joinedPending st.nextId) ∧
    (deduplicateCalls st key now n).2.fetchCount = st.fetchCount + 1 ∧
    alookup (deduplicateCalls st key now n).2.cs.pendingRequests key =
      some st.nextId ∧
    keysNodup (deduplicateCalls st key now n).2.cs.pendingRequests = true := by
  obtain ⟨m, rfl⟩ : ∃ m, n = m + 1 := ⟨n - 1, by omega⟩
  obtain ⟨s1, s2, s3, s4, s5⟩ := deduplicateRequest_start st key now hc hp
  have hp2 : alookup (deduplicateRequest st key now).2.cs.pendingRequests key
      = some st.nextId := by rw [s2]; exact alookup_ainsert_self _ _ _
  obtain ⟨i1, i2, i3, i4⟩ :=
    deduplicateCalls_join key now st.nextId m (deduplicateRequest st key now).2 s5 hp2
  refine ⟨?_, ?_, ?_, ?_⟩
  · show ((deduplicateRequest st key now).1 ::
        (deduplicateCalls (deduplicateRequest st key now).2 key now m).1) = _
    rw [s1, i1]
    simp
  · show (deduplicateCalls (deduplicateRequest st key now).2 key now m).2.fetchCount = _
    rw [i4, s4]
  · show alookup
        (deduplicateCalls (deduplicateRequest st key now).2 key now m).2.cs.pendingRequests
        key = _
    rw [i2]
    exact hp2
  · show keysNodup
        (deduplicateCalls (deduplicateRequest st key now).2 key now m).2.cs.pendingRequests
        = true
    rw [i2, s2]
    exact keysNodup_ainsert _ _ _ hnd

open UnifiedCacheSystem in
/-- C1 witness (spec Scenario B): five simultaneous callers on a fresh
system: the first starts promise 0, the other four join it, the fetcher
runs once. -/
theorem C1_single_flight_witness :
    (deduplicateCalls { cs := initState, nextId := 0, fetchCount := 0 }
        "photos_500" 0 5).1 =
      DedupOutcome.startedFetch 0 ::
        List.replicate 4 (DedupOutcome.joinedPending 0) ∧
    (deduplicateCalls { cs := initState, nextId := 0, fetchCount := 0 }
        "photos_500" 0 5).2.fetchCount = 1 :=
  ⟨(C1_single_flight { cs := initState, nextId := 0, fetchCount := 0 } "photos_500" 0 5
      (by decide) (by decide) (by decide) (by decide)).1,
   (C1_single_flight { cs := initState, nextId := 0, fetchCount := 0 } "photos_500" 0 5
      (by decide) (by decide) (by decide) (by decide)).2.1⟩

open UnifiedCacheSystem in
/-- Helper: a miss leaves the no-fresh-truthy condition trivially true. -/
theorem noFreshTruthyB_of_miss (c : List (String × CacheEntry)) (key : String)
    (now : ℚ) (h : alookup c key = none) : noFreshTruthyB c key now = true := by
  unfold noFreshTruthyB
  rw [h]

open UnifiedCacheSystem in
/-- Helper: whatever branch `deduplicateRequest` takes, the cache map of
the resulting state is the one its `get` probe produced — the
synchronous prefix never writes a cache entry. -/
theorem deduplicateRequest_cache (st : DedupState) (key : String) (now : ℚ) :
    (deduplicateRequest st key now).2.cs.cache =
      (UnifiedCacheSystem.get st.cs key now).2.cache := by
  unfold deduplicateRequest
  by_cases h : (UnifiedCacheSystem.get st.cs key now).1.truthy
  · simp [h]
  · cases hp : alookup (UnifiedCacheSystem.get st.cs key now).2.pendingRequests key <;>
      simp [h, hp]

open UnifiedCacheSystem in
/-- Helper: a run of deduplicated calls on a missing key never creates a
cache entry for it. -/
theorem deduplicateCalls_cache_miss (key : String) (now : ℚ) (m : Nat) :
    ∀ st : DedupState, alookup st.cs.cache key = none →
    alookup (deduplicateCalls st key now m).2.cs.cache key = none := by
  induction m with
  | zero => intro st h; exact h
  | succ m ih =>
      intro st h
      have h1 : alookup (deduplicateRequest st key now).2.cs.cache key = none := by
        rw [deduplicateRequest_cache, (get_miss st.cs key now h).2.1]
        exact h
      exact ih (deduplicateRequest st key now).2 h1

open UnifiedCacheSystem in
/-- C2.  No negative caching, and error atomicity: `n ≥ 1` callers issue
`deduplicateRequest(key, fetcher)` on a missing key with nothing pending;
the fetcher rejects.  All callers hold the one shared promise
`st.nextId` — the `.catch` handler rethrows, so each receives that same
rejection; after the failure settles, the pending entry for `key` is
removed, no cache entry was written for `key` (`get(key)` is still a
miss returning `null`), and the very next `deduplicateRequest(key, f2)`
invokes its fetcher again, starting the fresh promise `st.nextId + 1`
and raising the invocation count to `st.fetchCount + 2`. -/
theorem C2_no_negative_caching (st : DedupState) (key : String)
    (now now2 now3 : ℚ) (n : Nat) (hn : 1 ≤ n)
    (hmiss : alookup st.cs.cache key = none)
    (hp : alookup st.cs.pendingRequests key = none) :
    (deduplicateCalls st key now n).1 =
      DedupOutcome.startedFetch st.nextId ::
        List.replicate (n - 1) (DedupOutcome.joinedPending st.nextId) ∧
    alookup (settleFailure (deduplicateCalls st key now n).2 key).cs.pendingRequests
      key = none ∧
    alookup (settleFailure (deduplicateCalls st key now n).2 key).cs.cache key
      = none ∧
    (UnifiedCacheSystem.get (settleFailure (deduplicateCalls st key now n).2 key).cs
        key now2).1 = JSVal.vnull ∧
    (deduplicateRequest (settleFailure (deduplicateCalls st key now n).2 key)
        key now3).1 = DedupOutcome.startedFetch (st.nextId + 1) ∧
    (deduplicateRequest (settleFailure (deduplicateCalls st key now n).2 key)
        key now3).2.fetchCount = st.fetchCount + 2 := by
  obtain ⟨m, rfl⟩ : ∃ m, n = m + 1 := ⟨n - 1, by omega⟩
  have hc := noFreshTruthyB_of_miss st.cs.cache key now hmiss
  obtain ⟨s1, s2, s3, s4, s5⟩ := deduplicateRequest_start st key now hc hp
  have hp2 : alookup (deduplicateRequest st key now).2.cs.pendingRequests key
      = some st.nextId := by rw [s2]; exact alookup_ainsert_self _ _ _
  obtain ⟨i1, i2, i3, i4⟩ :=
    deduplicateCalls_join key now st.nextId m (deduplicateRequest st key now).2 s5 hp2
  have hcmiss : alookup (deduplicateCalls st key now (m + 1)).2.cs.cache key = none :=
    deduplicateCalls_cache_miss key now (m + 1) st hmiss
  have hfcache : alookup
      (settleFailure (deduplicateCalls st key now (m + 1)).2 key).cs.cache key
      = none := hcmiss
  have hfpend : alookup
      (settleFailure (deduplicateCalls st key now (m + 1)).2 key).cs.pendingRequests
      key = none := alookup_aerase_self _ _
  obtain ⟨t1, t2, t3, t4, t5⟩ := deduplicateRequest_start
    (settleFailure (deduplicateCalls st key now (m + 1)).2 key) key now3
    (noFreshTruthyB_of_miss _ key now3 hfcache) hfpend
  have hnext : (settleFailure (deduplicateCalls st key now (m + 1)).2 key).nextId
      = st.nextId + 1 := by
    show (deduplicateCalls st key now (m + 1)).2.nextId = st.nextId + 1
    show (deduplicateCalls (deduplicateRequest st key now).2 key now m).2.nextId = _
    rw [i3, s3]
  have hfc : (settleFailure (deduplicateCalls st key now (m + 1)).2 key).fetchCount
      = st.fetchCount + 1 := by
    show (deduplicateCalls st key now (m + 1)).2.fetchCount = st.fetchCount + 1
    show (deduplicateCalls (deduplicateRequest st key now).2 key now m).2.fetchCount = _
    rw [i4, s4]
  refine ⟨?_, hfpend, hfcache, ?_, ?_, ?_⟩
  · show ((deduplicateRequest st key now).1 ::
        (deduplicateCalls (deduplicateRequest st key now).2 key now m).1) = _
    rw [s1, i1]
    simp
  · exact (get_miss _ key now2 hfcache).1
  · rw [t1, hnext]
  · rw [t4, hfc]

open UnifiedCacheSystem in
/-- C2 witness: three callers on a fresh system share promise 0; after
the shared fetch rejects, nothing is pending or cached for the key, a
`get` still misses, and the next call starts fresh promise 1, bringing
the invocation count to 2. -/
theorem C2_no_negative_caching_witness :
    (deduplicateCalls { cs := initState, nextId := 0, fetchCount := 0 }
        "latest_perseverance" 0 3).1 =
      DedupOutcome.startedFetch 0 ::
        List.replicate 2 (DedupOutcome.joinedPending 0) ∧
    (deduplicateRequest
        (settleFailure
          (deduplicateCalls { cs := initState, nextId := 0, fetchCount := 0 }
            "latest_perseverance" 0 3).2 "latest_perseverance")
        "latest_perseverance" 5).1 = DedupOutcome.startedFetch 1 := by
  have h := C2_no_negative_caching { cs := initState, nextId := 0, fetchCount := 0 }
    "latest_perseverance" 0 1 5 3 (by decide) (by decide) (by decide)
  exact ⟨h.1, h.2.2.2.2.1⟩
